import Mathlib

/-!
Verification development for the slot/admission lifecycle engine of the
`core` Django app (flash-sale marketplace).

The embedding follows `src/core/models.py` and `src/core/views.py`.
Timestamps are modelled as integers, database rows as lists of structures,
and each view action as a pure function from a store state to a result and
a new store state.  The repository's `views.py` calls a status-based model
layer (`TimeSlot.status`, `ProductTimeSlot`, `AuditLog`,
`TimeSlot.objects.auto_refresh_statuses`, `pts.approve/reject/remove`)
whose definitions are not present in the checked-in `models.py`; those
parts are modelled from the specification and are marked
`Modelled from the spec:` in their doc comments.
-/

/-! ## Legacy `TimeSlot` model (`src/core/models.py`, lines 189-236)

The checked-in `models.py` stores the slot lifecycle as two booleans
(`waiting`, `ready`) plus the immutable `start_time`/`end_time`, and
offers the helpers `is_live` and `is_expired`. -/

/-- The `TimeSlot` Django model of `src/core/models.py` (boolean lifecycle
fields; `intensity` and `premium` carry no lifecycle logic and are kept as
plain data). -/
structure TimeSlot where
  start_time : Int
  end_time : Int
  waiting : Bool
  ready : Bool
  deriving Repr, DecidableEq

/-- `TimeSlot.is_live` (`models.py` lines 227-231):
`self.ready and self.start_time <= now <= self.end_time`, with `now`
made an explicit argument. -/
def TimeSlot.is_live (s : TimeSlot) (now : Int) : Bool :=
  s.ready && decide (s.start_time ≤ now) && decide (now ≤ s.end_time)

/-- `TimeSlot.is_expired` (`models.py` lines 233-236):
`timezone.now() > self.end_time`, with `now` explicit. -/
def TimeSlot.is_expired (s : TimeSlot) (now : Int) : Bool :=
  decide (s.end_time < now)

/-! ## Status-based store used by `src/core/views.py`

`views.py` manipulates a `TimeSlot` with a `status ∈ {waiting, live,
ended}` field, admission rows `ProductTimeSlot` with
`status ∈ {pending, approved, rejected, removed}` and a `moderator_comment`,
and an `AuditLog`.  The row types below carry exactly the fields the
claims touch. -/

/-- Slot lifecycle status (`waiting/live/ended` vocabulary used throughout
`views.py`). -/
inductive SlotStatus where
  | waiting
  | live
  | ended
  deriving Repr, DecidableEq

/-- Admission-record status (`pending/approved/rejected/removed` used by
`views.py`). -/
inductive AdmStatus where
  | pending
  | approved
  | rejected
  | removed
  deriving Repr, DecidableEq

/-- The status-based slot row used by `views.py` (called "Slot" in the
spec; the class itself is absent from the checked-in `models.py`, its
fields are read off the call sites: `status`, `name`, `start_time`,
`end_time`). -/
structure Slot where
  id : Nat
  name : String
  start_time : Int
  end_time : Int
  status : SlotStatus
  deriving Repr, DecidableEq

/-- `ProductTimeSlot` row: one product's admission into one slot
(fields read off the call sites in `views.py`: `product`, `timeslot`,
`status`, `moderator_comment`). -/
structure ProductTimeSlot where
  id : Nat
  productId : Nat
  timeslotId : Nat
  status : AdmStatus
  moderator_comment : String
  deriving Repr, DecidableEq

/-- `Product` row (only the fields the claims touch: owner and category). -/
structure Product where
  id : Nat
  merchantId : Nat
  categoryId : Nat
  deriving Repr, DecidableEq

/-- `AuditLog` row (fields read off the call sites in `views.py` and the
spec's Ledger Entry: owning admission record, actor, action, comment). -/
structure AuditLog where
  ptsId : Option Nat
  moderatorId : Option Nat
  action : String
  comment : String
  deriving Repr, DecidableEq

/-- The durable store: the three related tables plus products and a
fresh-id counter for row creation. -/
structure St where
  slots : List Slot
  products : List Product
  recs : List ProductTimeSlot
  logs : List AuditLog
  nextId : Nat
  deriving Repr, DecidableEq

/-- Status of the slot with the given id (first matching row), if any. -/
def slotStatus (st : St) (i : Nat) : Option SlotStatus :=
  (st.slots.find? (fun s => s.id == i)).map (fun s => s.status)

/-- Count of approved admission records of a slot (the spec's
`approved_count`). -/
def approvedCount (st : St) (i : Nat) : Nat :=
  (st.recs.filter (fun r => r.timeslotId == i && r.status == AdmStatus.approved)).length

/-- Overwrite the status of every slot row with the given id. -/
def setSlotStatus (st : St) (i : Nat) (t : SlotStatus) : St :=
  St.mk
    (st.slots.map (fun s => if s.id == i then Slot.mk s.id s.name s.start_time s.end_time t else s))
    st.products st.recs st.logs st.nextId

/-- Modelled from the spec: the Audit Ledger's duplicate suppression
(§4.4, absent from `src/`) — before writing an entry for a
status-settling transition, skip the write when an entry with the same
admission record, action and comment already exists. -/
def appendSettleLog (logs : List AuditLog) (ptsId : Nat) (actor : Option Nat)
    (action comment : String) : List AuditLog :=
  if logs.any (fun e => e.ptsId == some ptsId && e.action == action && e.comment == comment)
  then logs
  else logs ++ [AuditLog.mk (some ptsId) actor action comment]

/-- The fixed comment attached to admissions auto-rejected because their
slot missed the go-live threshold (spec §4.3). -/
def expiryComment : String := "timeslot expired before going live"

/-- Reject one admission row if it is a still-pending row of the given
slot; otherwise leave it unchanged. -/
def rejectPend (i : Nat) (r : ProductTimeSlot) : ProductTimeSlot :=
  if r.timeslotId == i && r.status == AdmStatus.pending then
    ProductTimeSlot.mk r.id r.productId r.timeslotId AdmStatus.rejected expiryComment
  else r

/-- Append one (deduplicated) rejection ledger entry per listed admission
row. -/
def autoRejectLogs (logs : List AuditLog) : List ProductTimeSlot → List AuditLog
  | [] => logs
  | r :: rest => autoRejectLogs (appendSettleLog logs r.id none "rejected" expiryComment) rest

/-- Modelled from the spec: the bulk side effect of the threshold-miss
transition (§4.3, absent from `src/`) — every admission record still
`pending` on the slot is rejected with the fixed expiry comment, each
producing its own ledger entry. -/
def autoRejectPendings (st : St) (i : Nat) : St :=
  let pend := st.recs.filter (fun r => r.timeslotId == i && r.status == AdmStatus.pending)
  St.mk st.slots st.products
    (st.recs.map (rejectPend i))
    (autoRejectLogs st.logs pend)
    st.nextId

/-- Modelled from the spec: the Slot re-evaluation algorithm (§4.3) behind
`TimeSlot.objects.auto_refresh_statuses()`, which `views.py` calls but
whose definition is absent from `src/`.  Pure in the explicit `now`:
(1) past `end_time` the target is `ended`; (2) a `waiting` slot whose
`start_time` has passed goes `live` when `approved_count ≥ 4` and
otherwise `ended` with the pending admissions auto-rejected; otherwise no
change, and write-back happens only when the target differs from the
current status. -/
def reeval_slot (now : Int) (st : St) (i : Nat) : St :=
  match st.slots.find? (fun s => s.id == i) with
  | none => st
  | some s =>
    if s.end_time ≤ now then
      if s.status = SlotStatus.ended then st
      else setSlotStatus st i SlotStatus.ended
    else if s.status = SlotStatus.waiting ∧ s.start_time ≤ now then
      if 4 ≤ approvedCount st i then setSlotStatus st i SlotStatus.live
      else autoRejectPendings (setSlotStatus st i SlotStatus.ended) i
    else st

/-! ## Merchant product actions (`merchant_products`, `views.py` lines 230-346) -/

/-- Python equality between a `str` and an `int`: values of different
types compare unequal, with no numeric coercion in `==` or `in`, so this
is `False` whatever the two values are.  It is the semantics of the skip
test `pid in existing_ids` of `views.py` line 294, where `pid` iterates
over the POSTed strings and `existing_ids` holds integer ids from
`values_list("product_id", flat=True)`. -/
def pyStrIntEq (_s : String) (_n : Nat) : Bool := false

/-- Python `int(s)` on a POSTed id string, as Django applies it when
coercing the value for an integer-field lookup (`id=pid`,
`product_id__in=product_ids`): the decimal value of the digits, or `none`
(`ValueError`) when the string is not a plain decimal numeral. -/
def pyInt? (s : String) : Option Nat :=
  if s.data ≠ [] ∧ s.data.all (fun c => c.isDigit) then
    some (s.data.foldl (fun n c => n * 10 + (c.toNat - 48)) 0)
  else none

/-- Outcome of the `assign_timeslot` POST action.  The last three error
constructors all surface through the same `except` clause (`views.py`
lines 314-315) as "Error assigning products: {e}" with the transaction
rolled back; they are distinguished here by the exception `e` carries. -/
inductive AssignResult where
  | notFoundSlot
  | guardViolation
  | noProducts
  | badPid
  | notFoundProduct
  | conflict
  | ok (created skipped : Nat)
  deriving Repr, DecidableEq

/-- Rows produced by one `assign_timeslot` transaction. -/
structure SubOut where
  created : Nat
  skipped : Nat
  recs : List ProductTimeSlot
  logs : List AuditLog
  nextId : Nat
  deriving Repr, DecidableEq

/-- An exception raised inside one `assign_timeslot` transaction,
aborting it: `ValueError` coercing a non-numeric POSTed pid, `Http404`
from `get_object_or_404(Product, ...)`, or `IntegrityError` from the
unique (product, slot) pair. -/
inductive SubErr where
  | badPid
  | notFoundProduct
  | conflict
  deriving Repr, DecidableEq

/-- The per-product loop of the `assign_timeslot` action (`views.py` lines
293-305).  `pid` iterates over the POSTed strings while `existing` holds
the integer ids from `values_list`, so the skip test `pid in existing_ids`
(line 294) compares a `str` against `int`s and never succeeds; every pid
therefore falls through to `get_object_or_404(Product, id=pid,
merchant=...)` — which coerces the string (`ValueError` when it is not
numeric) and 404s unless the product belongs to the requesting merchant —
and then to `ProductTimeSlot.objects.create(...)`.  Modelled from the
spec: the (product, slot) pair is unique together (§3), so creating an
already-present pair raises `IntegrityError`; row creation also emits one
`{action: pending}` ledger entry (§4.1), performed by the model layer
absent from `src/`.  Any raise aborts the whole transaction. -/
def assignLoop (products : List Product) (m tsId : Nat) (existing : List Nat) :
    List String → List ProductTimeSlot → List AuditLog → Nat → Except SubErr SubOut
  | [], recs, logs, n => Except.ok (SubOut.mk 0 0 recs logs n)
  | pid :: rest, recs, logs, n =>
    if existing.any (pyStrIntEq pid) then
      match assignLoop products m tsId existing rest recs logs n with
      | Except.error e => Except.error e
      | Except.ok o => Except.ok (SubOut.mk o.created (o.skipped + 1) o.recs o.logs o.nextId)
    else
      match pyInt? pid with
      | none => Except.error SubErr.badPid
      | some pidn =>
        match products.find? (fun p => p.id == pidn && p.merchantId == m) with
        | none => Except.error SubErr.notFoundProduct
        | some _ =>
          if recs.any (fun r => r.productId == pidn && r.timeslotId == tsId) then
            Except.error SubErr.conflict
          else
            match assignLoop products m tsId existing rest
                (recs ++ [ProductTimeSlot.mk n pidn tsId AdmStatus.pending ""])
                (logs ++ [AuditLog.mk (some n) none "pending" ""]) (n + 1) with
            | Except.error e => Except.error e
            | Except.ok o => Except.ok (SubOut.mk (o.created + 1) o.skipped o.recs o.logs o.nextId)

/-- The `assign_timeslot` POST action of `merchant_products` (`views.py`
lines 268-317): fetch the slot (404 otherwise), refuse when its status is
not `waiting` ("This timeslot is not open for listing"), refuse an empty
selection, then run the per-product loop in one transaction.  The
`existing_ids` query (lines 285-288) uses `product_id__in=product_ids`,
where the ORM does coerce the POSTed strings to integers — unlike the
Python-level skip test that later consumes the set.  An exception inside
the `transaction.atomic()` block rolls every row back and reaches the
view's `except` clause, so the store is returned unchanged. -/
def assign_timeslot (st : St) (m slotId : Nat) (pids : List String) : AssignResult × St :=
  match st.slots.find? (fun s => s.id == slotId) with
  | none => (AssignResult.notFoundSlot, st)
  | some ts =>
    if ts.status ≠ SlotStatus.waiting then (AssignResult.guardViolation, st)
    else if pids.isEmpty then (AssignResult.noProducts, st)
    else
      let existing := (st.recs.filter
        (fun r => r.timeslotId == slotId
          && pids.any (fun s => pyInt? s == some r.productId))).map
            (fun r => r.productId)
      match assignLoop st.products m slotId existing pids st.recs st.logs st.nextId with
      | Except.error SubErr.badPid => (AssignResult.badPid, st)
      | Except.error SubErr.notFoundProduct => (AssignResult.notFoundProduct, st)
      | Except.error SubErr.conflict => (AssignResult.conflict, st)
      | Except.ok o => (AssignResult.ok o.created o.skipped,
          St.mk st.slots st.products o.recs o.logs o.nextId)

/-- Outcome of the row-deleting merchant actions. -/
inductive WithdrawResult where
  | ok
  | notFound
  deriving Repr, DecidableEq

/-- The `remove_from_timeslot` POST action (`views.py` lines 321-326):
fetch the admission row by id, constrained to the requesting merchant's
products (404 otherwise), then `pts.delete()` — the row is hard-deleted
and nothing else changes. -/
def remove_from_timeslot (st : St) (m ptsId : Nat) : WithdrawResult × St :=
  match st.recs.find? (fun r => r.id == ptsId
      && st.products.any (fun p => p.id == r.productId && p.merchantId == m)) with
  | none => (WithdrawResult.notFound, st)
  | some _ => (WithdrawResult.ok,
      St.mk st.slots st.products (st.recs.filter (fun r => !(r.id == ptsId))) st.logs st.nextId)

/-- The `delete_product` POST action (`views.py` lines 329-346): fetch the
merchant's product (404 otherwise), mark its admission rows `removed` with
the fixed comment "Product deleted by merchant", then delete the product —
which cascades over its admission rows (spec §3: a record is deleted only
as a side effect of the owning product's deletion). -/
def delete_product (st : St) (m prodId : Nat) : WithdrawResult × St :=
  match st.products.find? (fun p => p.id == prodId && p.merchantId == m) with
  | none => (WithdrawResult.notFound, st)
  | some _ =>
    let recs1 := st.recs.map (fun r =>
      if r.productId == prodId then
        ProductTimeSlot.mk r.id r.productId r.timeslotId AdmStatus.removed
          "Product deleted by merchant"
      else r)
    (WithdrawResult.ok,
      St.mk st.slots (st.products.filter (fun p => !(p.id == prodId)))
        (recs1.filter (fun r => !(r.productId == prodId))) st.logs st.nextId)

/-! ## Moderator actions (`moderator_dashboard`, `views.py` lines 452-540) -/

/-- A moderator decision (`action in ["approve", "reject", "remove"]`). -/
inductive Decision where
  | approve
  | reject
  | remove
  deriving Repr, DecidableEq

/-- Outcome of the decision branch of `moderator_dashboard`. -/
inductive DecisionResult where
  | ok
  | unauthorized
  | staleState
  | notFound
  deriving Repr, DecidableEq

/-- Modelled from the spec: the fixed system comment `approve` persists
(§4.1; the `pts.approve` model method is absent from `src/`, this constant
stands for whatever fixed string it writes). -/
def approveComment : String := "Approved"

/-- Status a decision settles the admission record into. -/
def decisionStatus : Decision → AdmStatus
  | Decision.approve => AdmStatus.approved
  | Decision.reject => AdmStatus.rejected
  | Decision.remove => AdmStatus.removed

/-- Ledger action string of a decision. -/
def decisionAction : Decision → String
  | Decision.approve => "approved"
  | Decision.reject => "rejected"
  | Decision.remove => "removed"

/-- Comment persisted by a decision: `approve` writes the fixed system
comment, while the view passes `comment or "Rejected by moderator."` /
`comment or "Removed by moderator."` to reject/remove (`views.py` lines
513-521) — the operator's comment with a generic default when blank. -/
def decisionComment : Decision → String → String
  | Decision.approve, _ => approveComment
  | Decision.reject, c => if c = "" then "Rejected by moderator." else c
  | Decision.remove, c => if c = "" then "Removed by moderator." else c

/-- The approve/reject/remove POST branch of `moderator_dashboard`
(`views.py` lines 503-521): fetch the admission row (404 otherwise),
refuse with `Unauthorized` when the product's category is not among the
moderator's assigned categories (lines 508-511), then delegate to the
model-layer decision method.  Modelled from the spec: the absent
`pts.approve/reject/remove` methods defensively re-check that the owning
slot is still `waiting` and fail with `StaleState` otherwise (§4.2),
persist the status and comment, write one deduplicated ledger entry, and
re-trigger the owning slot's re-evaluation (§4.1). -/
def moderator_decide (st : St) (cats : List Nat) (modId : Nat) (d : Decision)
    (ptsId : Nat) (comment : String) (now : Int) : DecisionResult × St :=
  match st.recs.find? (fun r => r.id == ptsId) with
  | none => (DecisionResult.notFound, st)
  | some r =>
    match st.products.find? (fun p => p.id == r.productId) with
    | none => (DecisionResult.notFound, st)
    | some p =>
      if p.categoryId ∈ cats then
        match st.slots.find? (fun s => s.id == r.timeslotId) with
        | none => (DecisionResult.notFound, st)
        | some ts =>
          if ts.status = SlotStatus.waiting then
            let c := decisionComment d comment
            let st1 := St.mk st.slots st.products
              (st.recs.map (fun q => if q.id == ptsId then
                ProductTimeSlot.mk q.id q.productId q.timeslotId (decisionStatus d) c else q))
              (appendSettleLog st.logs ptsId (some modId) (decisionAction d) c)
              st.nextId
            (DecisionResult.ok, reeval_slot now st1 r.timeslotId)
          else (DecisionResult.staleState, st)
      else (DecisionResult.unauthorized, st)

/-- The `create_slot` POST branch of `moderator_dashboard` (`views.py`
lines 523-538): create a slot with `status="waiting"`.  Modelled from the
spec: creation also emits a single `{action: create_slot}` ledger entry
attributing the creator (§4.3; the entry owns no admission record). -/
def create_slot (st : St) (creator : Nat) (name : String) (start finish : Int) : St :=
  St.mk (st.slots ++ [Slot.mk st.nextId name start finish SlotStatus.waiting])
    st.products st.recs
    (st.logs ++ [AuditLog.mk none (some creator) "create_slot" ""])
    (st.nextId + 1)

/-- Modelled from the spec: the Reconciliation Job behind
`TimeSlot.objects.auto_refresh_statuses()` (§4.5, absent from `src/`) —
re-evaluate every slot at the current time. -/
def reconcileAll (now : Int) (st : St) : St :=
  (st.slots.map (fun s => s.id)).foldl (fun acc i => reeval_slot now acc i) st

/-- Rank of a slot status in lifecycle order (waiting < live < ended). -/
def SlotStatus.rank : SlotStatus → Nat
  | SlotStatus.waiting => 0
  | SlotStatus.live => 1
  | SlotStatus.ended => 2

/-- One operation of the system, as dispatched by the views. -/
inductive Op where
  | assign (m slotId : Nat) (pids : List String)
  | withdraw (m ptsId : Nat)
  | deleteProduct (m prodId : Nat)
  | moddecide (cats : List Nat) (modId : Nat) (d : Decision) (ptsId : Nat)
      (comment : String) (now : Int)
  | createSlot (creator : Nat) (name : String) (start finish : Int)
  | reconcile (now : Int)

/-- Effect of one operation on the store. -/
def applyOp (op : Op) (st : St) : St :=
  match op with
  | Op.assign m slotId pids => (assign_timeslot st m slotId pids).2
  | Op.withdraw m ptsId => (remove_from_timeslot st m ptsId).2
  | Op.deleteProduct m prodId => (delete_product st m prodId).2
  | Op.moddecide cats modId d ptsId comment now =>
      (moderator_decide st cats modId d ptsId comment now).2
  | Op.createSlot creator name start finish => create_slot st creator name start finish
  | Op.reconcile now => reconcileAll now st

/-- Store-to-store slot monotonicity: every slot present on the left is
present on the right with a status at least as far along the lifecycle. -/
def SlotMono (st st' : St) : Prop :=
  ∀ i s, slotStatus st i = some s → ∃ s', slotStatus st' i = some s' ∧ s.rank ≤ s'.rank


/-! ## C10 -/

/-- C10: for every `TimeSlot` of `models.py` and every current time,
`is_live` and `is_expired` are never both true: `is_live` requires
`now ≤ end_time` while `is_expired` requires `end_time < now`. -/
theorem timeslot_live_not_expired (s : TimeSlot) (now : Int)
    (h : s.is_live now = true) : s.is_expired now = false := by
  simp [TimeSlot.is_live, TimeSlot.is_expired] at *
  omega

/-- Witness for C10 at a concrete slot: ready, start 0, end 10, now 5. -/
theorem timeslot_live_not_expired_witness :
    (TimeSlot.mk 0 10 false true).is_live 5 = true ∧
      (TimeSlot.mk 0 10 false true).is_expired 5 = false :=
  ⟨by decide, timeslot_live_not_expired (TimeSlot.mk 0 10 false true) 5 (by decide)⟩

/-! ## Lemmas about `setSlotStatus`, `autoRejectPendings` and the ledger -/

/-- The status overwrite keeps every row's id. -/
lemma set_id_eq (i : Nat) (t : SlotStatus) (x : Slot) :
    (if x.id == i then Slot.mk x.id x.name x.start_time x.end_time t else x).id = x.id := by
  by_cases h2 : x.id = i <;> simp [h2]

/-- `find?` for the slot being overwritten returns the overwritten row. -/
lemma find?_set_self (l : List Slot) (i : Nat) (t : SlotStatus) :
    (l.map (fun s => if s.id == i then Slot.mk s.id s.name s.start_time s.end_time t else s)).find?
        (fun s => s.id == i)
      = (l.find? (fun s => s.id == i)).map
          (fun s => Slot.mk s.id s.name s.start_time s.end_time t) := by
  induction l with
  | nil => rfl
  | cons a l ih =>
    simp only [List.map_cons]
    by_cases h : a.id = i
    · rw [List.find?_cons_of_pos _ (by simp [set_id_eq, h]),
        List.find?_cons_of_pos _ (by simp [h])]
      simp [h]
    · rw [List.find?_cons_of_neg _ (by simp [set_id_eq, h]),
        List.find?_cons_of_neg _ (by simp [h]), ih]

/-- `find?` for any other slot id is unaffected by the overwrite. -/
lemma find?_set_ne (l : List Slot) (i j : Nat) (t : SlotStatus) (hij : j ≠ i) :
    (l.map (fun s => if s.id == i then Slot.mk s.id s.name s.start_time s.end_time t else s)).find?
        (fun s => s.id == j)
      = l.find? (fun s => s.id == j) := by
  induction l with
  | nil => rfl
  | cons a l ih =>
    simp only [List.map_cons]
    by_cases h : a.id = j
    · have hai : ¬a.id = i := by rw [h]; exact hij
      rw [List.find?_cons_of_pos _ (by simp only [set_id_eq]; simp [h]),
        List.find?_cons_of_pos _ (by simp [h])]
      simp [hai]
    · rw [List.find?_cons_of_neg _ (by simp only [set_id_eq]; simp [h]),
        List.find?_cons_of_neg _ (by simp [h]), ih]

lemma find?_setSlotStatus_self (st : St) (i : Nat) (t : SlotStatus) :
    (setSlotStatus st i t).slots.find? (fun s => s.id == i)
      = (st.slots.find? (fun s => s.id == i)).map
          (fun s => Slot.mk s.id s.name s.start_time s.end_time t) :=
  find?_set_self st.slots i t

lemma find?_setSlotStatus_ne (st : St) (i j : Nat) (t : SlotStatus) (hij : j ≠ i) :
    (setSlotStatus st i t).slots.find? (fun s => s.id == j)
      = st.slots.find? (fun s => s.id == j) :=
  find?_set_ne st.slots i j t hij

lemma slotStatus_set_self (st : St) (i : Nat) (t : SlotStatus) :
    slotStatus (setSlotStatus st i t) i = (slotStatus st i).map (fun _ => t) := by
  unfold slotStatus
  rw [find?_setSlotStatus_self]
  cases st.slots.find? (fun s => s.id == i) <;> rfl

lemma slotStatus_set_ne (st : St) (i j : Nat) (t : SlotStatus) (hij : j ≠ i) :
    slotStatus (setSlotStatus st i t) j = slotStatus st j := by
  unfold slotStatus
  rw [find?_setSlotStatus_ne st i j t hij]

lemma autoRejectPendings_slots (st : St) (i : Nat) :
    (autoRejectPendings st i).slots = st.slots := rfl

lemma slotStatus_autoRejectPendings (st : St) (i j : Nat) :
    slotStatus (autoRejectPendings st i) j = slotStatus st j := rfl

/-- Existing ledger entries survive the auto-reject append pass. -/
lemma mem_autoRejectLogs_mono (logs : List AuditLog) (l : List ProductTimeSlot)
    (e : AuditLog) (he : e ∈ logs) : e ∈ autoRejectLogs logs l := by
  induction l generalizing logs with
  | nil => exact he
  | cons a l ih =>
    simp only [autoRejectLogs]
    apply ih
    unfold appendSettleLog
    split
    · exact he
    · exact List.mem_append_left _ he

/-- After the auto-reject append pass, every listed admission row has a
rejection entry with the fixed expiry comment. -/
lemma autoRejectLogs_covers (logs : List AuditLog) (l : List ProductTimeSlot)
    (r : ProductTimeSlot) (hr : r ∈ l) :
    ∃ e ∈ autoRejectLogs logs l,
      e.ptsId = some r.id ∧ e.action = "rejected" ∧ e.comment = expiryComment := by
  induction l generalizing logs with
  | nil => cases hr
  | cons a l ih =>
    simp only [autoRejectLogs]
    rcases List.mem_cons.mp hr with rfl | hr'
    · have hstep : ∃ e ∈ appendSettleLog logs r.id none "rejected" expiryComment,
          e.ptsId = some r.id ∧ e.action = "rejected" ∧ e.comment = expiryComment := by
        by_cases hc : logs.any
            (fun e => e.ptsId == some r.id && e.action == "rejected" && e.comment == expiryComment)
        · rcases List.any_eq_true.mp hc with ⟨e, he, hp⟩
          simp only [Bool.and_eq_true, beq_iff_eq] at hp
          exact ⟨e, by simp [appendSettleLog, hc, he], hp.1.1, hp.1.2, hp.2⟩
        · exact ⟨AuditLog.mk (some r.id) none "rejected" expiryComment,
            by simp [appendSettleLog, hc], rfl, rfl, rfl⟩
      rcases hstep with ⟨e, he, hp⟩
      exact ⟨e, mem_autoRejectLogs_mono _ l e he, hp⟩
    · exact ih _ hr'

/-! ## C6 — idempotence of slot re-evaluation -/

/-- C6: re-evaluating a slot twice at the same time with the same store
yields the same store as re-evaluating once — in particular the status is
unchanged and no ledger entry is appended by the second invocation
(write-back only happens when the computed target differs from the
current status). -/
theorem reeval_slot_idempotent (now : Int) (st : St) (i : Nat) :
    reeval_slot now (reeval_slot now st i) i = reeval_slot now st i := by
  cases h : st.slots.find? (fun s => s.id == i) with
  | none => simp [reeval_slot, h]
  | some s =>
    by_cases h1 : s.end_time ≤ now
    · by_cases h2 : s.status = SlotStatus.ended
      · simp [reeval_slot, h, h1, h2]
      · have hin : reeval_slot now st i = setSlotStatus st i SlotStatus.ended := by
          simp [reeval_slot, h, h1, h2]
        have hf : (setSlotStatus st i SlotStatus.ended).slots.find? (fun s => s.id == i)
            = some (Slot.mk s.id s.name s.start_time s.end_time SlotStatus.ended) := by
          rw [find?_setSlotStatus_self, h]; rfl
        rw [hin]
        simp [reeval_slot, hf, h1]
    · by_cases h2 : s.status = SlotStatus.waiting ∧ s.start_time ≤ now
      · by_cases h3 : 4 ≤ approvedCount st i
        · have hin : reeval_slot now st i = setSlotStatus st i SlotStatus.live := by
            simp [reeval_slot, h, h1, h2, h3]
          have hf : (setSlotStatus st i SlotStatus.live).slots.find? (fun s => s.id == i)
              = some (Slot.mk s.id s.name s.start_time s.end_time SlotStatus.live) := by
            rw [find?_setSlotStatus_self, h]; rfl
          rw [hin]
          simp [reeval_slot, hf, h1]
        · have hin : reeval_slot now st i
              = autoRejectPendings (setSlotStatus st i SlotStatus.ended) i := by
            simp [reeval_slot, h, h1, h2, h3]
          have hf : (autoRejectPendings (setSlotStatus st i SlotStatus.ended) i).slots.find?
                (fun s => s.id == i)
              = some (Slot.mk s.id s.name s.start_time s.end_time SlotStatus.ended) := by
            rw [autoRejectPendings_slots, find?_setSlotStatus_self, h]; rfl
          rw [hin]
          simp [reeval_slot, hf, h1]
      · have hin : reeval_slot now st i = st := by
          simp [reeval_slot, h, h1, h2]
        rw [hin, hin]

/-! ## C1 — re-evaluation of a waiting slot whose window has opened -/

/-- C1: re-evaluating a `waiting` slot whose start time has passed and
whose end time has not makes it `live` when at least 4 admissions are
approved; otherwise it becomes `ended` and every still-`pending` admission
record of the slot is transitioned to `rejected` with the fixed expiry
comment, each with its own ledger entry. -/
theorem reeval_waiting_window (now : Int) (st : St) (i : Nat) (s : Slot)
    (hf : st.slots.find? (fun s => s.id == i) = some s)
    (hw : s.status = SlotStatus.waiting)
    (hs : s.start_time ≤ now)
    (he : now < s.end_time) :
    (4 ≤ approvedCount st i → slotStatus (reeval_slot now st i) i = some SlotStatus.live)
    ∧ (approvedCount st i < 4 →
        slotStatus (reeval_slot now st i) i = some SlotStatus.ended ∧
        ∀ r ∈ st.recs, r.timeslotId = i → r.status = AdmStatus.pending →
          (ProductTimeSlot.mk r.id r.productId r.timeslotId AdmStatus.rejected expiryComment
              ∈ (reeval_slot now st i).recs ∧
            ∃ e ∈ (reeval_slot now st i).logs,
              e.ptsId = some r.id ∧ e.action = "rejected" ∧ e.comment = expiryComment)) := by
  have h1 : ¬s.end_time ≤ now := by omega
  have h2 : s.status = SlotStatus.waiting ∧ s.start_time ≤ now := ⟨hw, hs⟩
  constructor
  · intro h3
    have hin : reeval_slot now st i = setSlotStatus st i SlotStatus.live := by
      simp [reeval_slot, hf, h1, h2, h3]
    rw [hin, slotStatus_set_self]
    simp [slotStatus, hf]
  · intro h3
    have h3' : ¬4 ≤ approvedCount st i := by omega
    have hin : reeval_slot now st i
        = autoRejectPendings (setSlotStatus st i SlotStatus.ended) i := by
      simp [reeval_slot, hf, h1, h2, h3']
    refine ⟨?_, ?_⟩
    · rw [hin, slotStatus_autoRejectPendings, slotStatus_set_self]
      simp [slotStatus, hf]
    · intro r hr hti hstat
      rw [hin]
      have hrecs : (autoRejectPendings (setSlotStatus st i SlotStatus.ended) i).recs
          = st.recs.map (rejectPend i) := rfl
      have hlogs : (autoRejectPendings (setSlotStatus st i SlotStatus.ended) i).logs
          = autoRejectLogs st.logs
              (st.recs.filter (fun q => q.timeslotId == i && q.status == AdmStatus.pending)) := rfl
      constructor
      · rw [hrecs]
        have hr' : rejectPend i r
            = ProductTimeSlot.mk r.id r.productId r.timeslotId AdmStatus.rejected expiryComment := by
          simp [rejectPend, hti, hstat]
        exact List.mem_map.mpr ⟨r, hr, hr'⟩
      · rw [hlogs]
        exact autoRejectLogs_covers st.logs _ r
          (List.mem_filter.mpr ⟨hr, by simp [hti, hstat]⟩)

/-- Witness for C1 at a concrete store: one waiting slot (window 0-10,
checked at time 0) with a single pending admission and no approvals. -/
theorem reeval_waiting_window_witness :
    ((St.mk [Slot.mk 1 "S" 0 10 SlotStatus.waiting] [Product.mk 2 7 1]
          [ProductTimeSlot.mk 5 2 1 AdmStatus.pending ""] [] 6).slots.find?
        (fun s => s.id == 1) = some (Slot.mk 1 "S" 0 10 SlotStatus.waiting))
    ∧ ((4 ≤ approvedCount (St.mk [Slot.mk 1 "S" 0 10 SlotStatus.waiting] [Product.mk 2 7 1]
            [ProductTimeSlot.mk 5 2 1 AdmStatus.pending ""] [] 6) 1 →
          slotStatus (reeval_slot 0 (St.mk [Slot.mk 1 "S" 0 10 SlotStatus.waiting]
            [Product.mk 2 7 1] [ProductTimeSlot.mk 5 2 1 AdmStatus.pending ""] [] 6) 1) 1
            = some SlotStatus.live)
        ∧ (approvedCount (St.mk [Slot.mk 1 "S" 0 10 SlotStatus.waiting] [Product.mk 2 7 1]
            [ProductTimeSlot.mk 5 2 1 AdmStatus.pending ""] [] 6) 1 < 4 →
          slotStatus (reeval_slot 0 (St.mk [Slot.mk 1 "S" 0 10 SlotStatus.waiting]
            [Product.mk 2 7 1] [ProductTimeSlot.mk 5 2 1 AdmStatus.pending ""] [] 6) 1) 1
            = some SlotStatus.ended ∧
          ∀ r ∈ (St.mk [Slot.mk 1 "S" 0 10 SlotStatus.waiting] [Product.mk 2 7 1]
              [ProductTimeSlot.mk 5 2 1 AdmStatus.pending ""] [] 6).recs,
            r.timeslotId = 1 → r.status = AdmStatus.pending →
            (ProductTimeSlot.mk r.id r.productId r.timeslotId AdmStatus.rejected expiryComment
                ∈ (reeval_slot 0 (St.mk [Slot.mk 1 "S" 0 10 SlotStatus.waiting]
                  [Product.mk 2 7 1] [ProductTimeSlot.mk 5 2 1 AdmStatus.pending ""] [] 6) 1).recs ∧
              ∃ e ∈ (reeval_slot 0 (St.mk [Slot.mk 1 "S" 0 10 SlotStatus.waiting]
                  [Product.mk 2 7 1] [ProductTimeSlot.mk 5 2 1 AdmStatus.pending ""] [] 6) 1).logs,
                e.ptsId = some r.id ∧ e.action = "rejected" ∧ e.comment = expiryComment))) :=
  ⟨by decide,
    reeval_waiting_window 0
      (St.mk [Slot.mk 1 "S" 0 10 SlotStatus.waiting] [Product.mk 2 7 1]
        [ProductTimeSlot.mk 5 2 1 AdmStatus.pending ""] [] 6) 1
      (Slot.mk 1 "S" 0 10 SlotStatus.waiting) (by decide) rfl (by decide) (by decide)⟩

/-! ## C2 — submission guard on non-waiting slots -/

/-- C2: submitting products into a slot whose status is not `waiting`
fails with the guard violation ("This timeslot is not open for listing")
and leaves the store unchanged — no admission record is created. -/
theorem assign_guard_violation (st : St) (m slotId : Nat) (pids : List String) (ts : Slot)
    (hf : st.slots.find? (fun s => s.id == slotId) = some ts)
    (hw : ts.status ≠ SlotStatus.waiting) :
    assign_timeslot st m slotId pids = (AssignResult.guardViolation, st) := by
  simp [assign_timeslot, hf, hw]

/-- Witness for C2: submitting into a live slot fails and changes
nothing. -/
theorem assign_guard_violation_witness :
    ((St.mk [Slot.mk 1 "S" 0 10 SlotStatus.live] [Product.mk 2 7 1] [] [] 3).slots.find?
        (fun s => s.id == 1) = some (Slot.mk 1 "S" 0 10 SlotStatus.live))
    ∧ assign_timeslot (St.mk [Slot.mk 1 "S" 0 10 SlotStatus.live] [Product.mk 2 7 1] [] [] 3)
          7 1 ["2"]
        = (AssignResult.guardViolation,
          St.mk [Slot.mk 1 "S" 0 10 SlotStatus.live] [Product.mk 2 7 1] [] [] 3) :=
  ⟨by decide,
    assign_guard_violation (St.mk [Slot.mk 1 "S" 0 10 SlotStatus.live] [Product.mk 2 7 1] [] [] 3)
      7 1 ["2"] (Slot.mk 1 "S" 0 10 SlotStatus.live) (by decide) (by decide)⟩

/-! ## C3 — duplicate (product, slot) submissions -/

/-- C3: with the slot `waiting` and the POSTed pid resolving to a product
of the requesting merchant, the first submission of the (product, slot)
pair creates exactly one admission record in status `pending` with one
`{action: pending}` ledger entry; submitting the same pair again creates
no second record and fails with the conflict error — the string-vs-int
skip test of `views.py` line 294 never fires, so the duplicate reaches
row creation, whose unique-pair constraint raises and rolls the
transaction back. -/
theorem assign_first_creates_duplicate_conflicts (st : St) (m slotId pidn : Nat)
    (pid : String) (ts : Slot) (p : Product)
    (hf : st.slots.find? (fun s => s.id == slotId) = some ts)
    (hw : ts.status = SlotStatus.waiting)
    (hpid : pyInt? pid = some pidn)
    (hp : st.products.find? (fun q => q.id == pidn && q.merchantId == m) = some p) :
    ((¬∃ r ∈ st.recs, r.timeslotId = slotId ∧ r.productId = pidn) →
        assign_timeslot st m slotId [pid]
          = (AssignResult.ok 1 0,
            St.mk st.slots st.products
              (st.recs ++ [ProductTimeSlot.mk st.nextId pidn slotId AdmStatus.pending ""])
              (st.logs ++ [AuditLog.mk (some st.nextId) none "pending" ""])
              (st.nextId + 1)))
    ∧ ((∃ r ∈ st.recs, r.timeslotId = slotId ∧ r.productId = pidn) →
        assign_timeslot st m slotId [pid] = (AssignResult.conflict, st)) := by
  have hskip : ∀ (l : List Nat), l.any (pyStrIntEq pid) = false := by
    intro l
    simp [pyStrIntEq]
  constructor
  · intro hno
    have hdup : st.recs.any
        (fun r => r.productId == pidn && r.timeslotId == slotId) = false := by
      rw [List.any_eq_false]
      intro r hr hcon
      simp only [Bool.and_eq_true, beq_iff_eq] at hcon
      exact hno ⟨r, hr, hcon.2, hcon.1⟩
    simp [assign_timeslot, hf, hw, assignLoop, hskip, hpid, hp, hdup]
  · intro hex
    rcases hex with ⟨r0, hr0, ht0, hp0⟩
    have hdup : st.recs.any
        (fun r => r.productId == pidn && r.timeslotId == slotId) = true :=
      List.any_eq_true.mpr ⟨r0, hr0, by simp [ht0, hp0]⟩
    simp [assign_timeslot, hf, hw, assignLoop, hskip, hpid, hp, hdup]

/-- Witness for C3 at a concrete store whose pair is already listed: the
resubmission of pid "2" hits the conflict error with the store unchanged
(the creation branch is vacuous there). -/
theorem assign_first_creates_duplicate_conflicts_witness :
    ((St.mk [Slot.mk 1 "S" 0 10 SlotStatus.waiting] [Product.mk 2 7 1]
          [ProductTimeSlot.mk 5 2 1 AdmStatus.pending ""] [] 6).slots.find?
        (fun s => s.id == 1) = some (Slot.mk 1 "S" 0 10 SlotStatus.waiting))
    ∧ pyInt? "2" = some 2
    ∧ ((St.mk [Slot.mk 1 "S" 0 10 SlotStatus.waiting] [Product.mk 2 7 1]
          [ProductTimeSlot.mk 5 2 1 AdmStatus.pending ""] [] 6).products.find?
        (fun q => q.id == 2 && q.merchantId == 7) = some (Product.mk 2 7 1))
    ∧ (((¬∃ r ∈ (St.mk [Slot.mk 1 "S" 0 10 SlotStatus.waiting] [Product.mk 2 7 1]
            [ProductTimeSlot.mk 5 2 1 AdmStatus.pending ""] [] 6).recs,
            r.timeslotId = 1 ∧ r.productId = 2) →
          assign_timeslot (St.mk [Slot.mk 1 "S" 0 10 SlotStatus.waiting] [Product.mk 2 7 1]
              [ProductTimeSlot.mk 5 2 1 AdmStatus.pending ""] [] 6) 7 1 ["2"]
            = (AssignResult.ok 1 0,
              St.mk [Slot.mk 1 "S" 0 10 SlotStatus.waiting] [Product.mk 2 7 1]
                ([ProductTimeSlot.mk 5 2 1 AdmStatus.pending ""]
                  ++ [ProductTimeSlot.mk 6 2 1 AdmStatus.pending ""])
                [AuditLog.mk (some 6) none "pending" ""] 7))
        ∧ ((∃ r ∈ (St.mk [Slot.mk 1 "S" 0 10 SlotStatus.waiting] [Product.mk 2 7 1]
              [ProductTimeSlot.mk 5 2 1 AdmStatus.pending ""] [] 6).recs,
              r.timeslotId = 1 ∧ r.productId = 2) →
          assign_timeslot (St.mk [Slot.mk 1 "S" 0 10 SlotStatus.waiting] [Product.mk 2 7 1]
              [ProductTimeSlot.mk 5 2 1 AdmStatus.pending ""] [] 6) 7 1 ["2"]
            = (AssignResult.conflict,
              St.mk [Slot.mk 1 "S" 0 10 SlotStatus.waiting] [Product.mk 2 7 1]
                [ProductTimeSlot.mk 5 2 1 AdmStatus.pending ""] [] 6))) :=
  ⟨by decide, by decide, by decide,
    assign_first_creates_duplicate_conflicts
      (St.mk [Slot.mk 1 "S" 0 10 SlotStatus.waiting] [Product.mk 2 7 1]
        [ProductTimeSlot.mk 5 2 1 AdmStatus.pending ""] [] 6) 7 1 2 "2"
      (Slot.mk 1 "S" 0 10 SlotStatus.waiting) (Product.mk 2 7 1)
      (by decide) rfl (by decide) (by decide)⟩

/-! ## C8 — merchant withdrawal -/

/-- C8 counterexample: a merchant withdrawing a product from a timeslot
(`remove_from_timeslot`) hard-deletes the admission row while the owning
product still exists — the row is not preserved by a status-only update
to `removed`. -/
theorem withdraw_hard_deletes_row :
    remove_from_timeslot (St.mk [Slot.mk 1 "S" 0 10 SlotStatus.waiting] [Product.mk 2 7 1]
        [ProductTimeSlot.mk 5 2 1 AdmStatus.pending ""] [] 6) 7 5
      = (WithdrawResult.ok,
        St.mk [Slot.mk 1 "S" 0 10 SlotStatus.waiting] [Product.mk 2 7 1] [] [] 6) := by
  decide

/-- C8 (amended): merchant-initiated withdrawal hard-deletes the
admission row — the targeted row is filtered out of the store, with no
status-only update and no ledger entry; the status-only update to
`removed` with a fixed comment happens only on the product-deletion path,
which marks the rows before the product's deletion cascades over them. -/
theorem withdraw_deletes_record (st : St) (m ptsId : Nat) (r : ProductTimeSlot)
    (hf : st.recs.find? (fun q => q.id == ptsId
        && st.products.any (fun p => p.id == q.productId && p.merchantId == m)) = some r) :
    remove_from_timeslot st m ptsId
      = (WithdrawResult.ok,
        St.mk st.slots st.products (st.recs.filter (fun q => !(q.id == ptsId)))
          st.logs st.nextId) := by
  simp [remove_from_timeslot, hf]

/-- Witness for C8 (amended) at the concrete store of the
counterexample. -/
theorem withdraw_deletes_record_witness :
    ((St.mk [Slot.mk 1 "S" 0 10 SlotStatus.waiting] [Product.mk 2 7 1]
          [ProductTimeSlot.mk 5 2 1 AdmStatus.pending ""] [] 6).recs.find?
        (fun q => q.id == 5
          && (St.mk [Slot.mk 1 "S" 0 10 SlotStatus.waiting] [Product.mk 2 7 1]
              [ProductTimeSlot.mk 5 2 1 AdmStatus.pending ""] [] 6).products.any
                (fun p => p.id == q.productId && p.merchantId == 7))
        = some (ProductTimeSlot.mk 5 2 1 AdmStatus.pending ""))
    ∧ remove_from_timeslot (St.mk [Slot.mk 1 "S" 0 10 SlotStatus.waiting] [Product.mk 2 7 1]
          [ProductTimeSlot.mk 5 2 1 AdmStatus.pending ""] [] 6) 7 5
        = (WithdrawResult.ok,
          St.mk [Slot.mk 1 "S" 0 10 SlotStatus.waiting] [Product.mk 2 7 1]
            ((St.mk [Slot.mk 1 "S" 0 10 SlotStatus.waiting] [Product.mk 2 7 1]
              [ProductTimeSlot.mk 5 2 1 AdmStatus.pending ""] [] 6).recs.filter
                (fun q => !(q.id == 5))) [] 6) :=
  ⟨by decide,
    withdraw_deletes_record (St.mk [Slot.mk 1 "S" 0 10 SlotStatus.waiting] [Product.mk 2 7 1]
        [ProductTimeSlot.mk 5 2 1 AdmStatus.pending ""] [] 6) 7 5
      (ProductTimeSlot.mk 5 2 1 AdmStatus.pending "") (by decide)⟩

/-! ## C4 — category authorization of moderator decisions -/

/-- C4: a moderator decision on an admission record whose product
category is not among the moderator's assigned categories fails with
`Unauthorized` and leaves the store unchanged — the record's status is
untouched and no ledger entry is written. -/
theorem decide_unauthorized (st : St) (cats : List Nat) (modId : Nat) (d : Decision)
    (ptsId : Nat) (comment : String) (now : Int) (r : ProductTimeSlot) (p : Product)
    (hr : st.recs.find? (fun q => q.id == ptsId) = some r)
    (hp : st.products.find? (fun q => q.id == r.productId) = some p)
    (hc : p.categoryId ∉ cats) :
    moderator_decide st cats modId d ptsId comment now = (DecisionResult.unauthorized, st) := by
  simp [moderator_decide, hr, hp, hc]

/-- Witness for C4: a moderator assigned only category 9 cannot approve a
record whose product is in category 1. -/
theorem decide_unauthorized_witness :
    ((St.mk [Slot.mk 1 "S" 0 10 SlotStatus.waiting] [Product.mk 2 7 1]
          [ProductTimeSlot.mk 5 2 1 AdmStatus.pending ""] [] 6).recs.find?
        (fun q => q.id == 5) = some (ProductTimeSlot.mk 5 2 1 AdmStatus.pending ""))
    ∧ ((St.mk [Slot.mk 1 "S" 0 10 SlotStatus.waiting] [Product.mk 2 7 1]
          [ProductTimeSlot.mk 5 2 1 AdmStatus.pending ""] [] 6).products.find?
        (fun q => q.id == 2) = some (Product.mk 2 7 1))
    ∧ (1 : Nat) ∉ [9]
    ∧ moderator_decide (St.mk [Slot.mk 1 "S" 0 10 SlotStatus.waiting] [Product.mk 2 7 1]
          [ProductTimeSlot.mk 5 2 1 AdmStatus.pending ""] [] 6) [9] 3 Decision.approve 5 "" 0
        = (DecisionResult.unauthorized,
          St.mk [Slot.mk 1 "S" 0 10 SlotStatus.waiting] [Product.mk 2 7 1]
            [ProductTimeSlot.mk 5 2 1 AdmStatus.pending ""] [] 6) :=
  ⟨by decide, by decide, by decide,
    decide_unauthorized (St.mk [Slot.mk 1 "S" 0 10 SlotStatus.waiting] [Product.mk 2 7 1]
        [ProductTimeSlot.mk 5 2 1 AdmStatus.pending ""] [] 6) [9] 3 Decision.approve 5 "" 0
      (ProductTimeSlot.mk 5 2 1 AdmStatus.pending "") (Product.mk 2 7 1)
      (by decide) (by decide) (by decide)⟩

/-! ## C7 — stale-state re-check of moderator decisions -/

/-- C7: a moderator decision whose target record's owning slot has left
`waiting` by decision time fails with `StaleState` and leaves the store
unchanged — no record mutation and no ledger entry — via the re-check the
decision methods perform after the category authorization. -/
theorem decide_stale_state (st : St) (cats : List Nat) (modId : Nat) (d : Decision)
    (ptsId : Nat) (comment : String) (now : Int) (r : ProductTimeSlot) (p : Product) (ts : Slot)
    (hr : st.recs.find? (fun q => q.id == ptsId) = some r)
    (hp : st.products.find? (fun q => q.id == r.productId) = some p)
    (hc : p.categoryId ∈ cats)
    (hs : st.slots.find? (fun s => s.id == r.timeslotId) = some ts)
    (hw : ts.status ≠ SlotStatus.waiting) :
    moderator_decide st cats modId d ptsId comment now = (DecisionResult.staleState, st) := by
  simp [moderator_decide, hr, hp, hc, hs, hw]

/-- Witness for C7: deciding on a record whose slot is already ended. -/
theorem decide_stale_state_witness :
    ((St.mk [Slot.mk 1 "S" 0 10 SlotStatus.ended] [Product.mk 2 7 1]
          [ProductTimeSlot.mk 5 2 1 AdmStatus.pending ""] [] 6).recs.find?
        (fun q => q.id == 5) = some (ProductTimeSlot.mk 5 2 1 AdmStatus.pending ""))
    ∧ (1 : Nat) ∈ [1]
    ∧ ((St.mk [Slot.mk 1 "S" 0 10 SlotStatus.ended] [Product.mk 2 7 1]
          [ProductTimeSlot.mk 5 2 1 AdmStatus.pending ""] [] 6).slots.find?
        (fun s => s.id == 1) = some (Slot.mk 1 "S" 0 10 SlotStatus.ended))
    ∧ moderator_decide (St.mk [Slot.mk 1 "S" 0 10 SlotStatus.ended] [Product.mk 2 7 1]
          [ProductTimeSlot.mk 5 2 1 AdmStatus.pending ""] [] 6) [1] 3 Decision.approve 5 "" 0
        = (DecisionResult.staleState,
          St.mk [Slot.mk 1 "S" 0 10 SlotStatus.ended] [Product.mk 2 7 1]
            [ProductTimeSlot.mk 5 2 1 AdmStatus.pending ""] [] 6) :=
  ⟨by decide, by decide, by decide,
    decide_stale_state (St.mk [Slot.mk 1 "S" 0 10 SlotStatus.ended] [Product.mk 2 7 1]
        [ProductTimeSlot.mk 5 2 1 AdmStatus.pending ""] [] 6) [1] 3 Decision.approve 5 "" 0
      (ProductTimeSlot.mk 5 2 1 AdmStatus.pending "") (Product.mk 2 7 1)
      (Slot.mk 1 "S" 0 10 SlotStatus.ended) (by decide) (by decide) (by decide)
      (by decide) (by decide)⟩

/-! ## C9 — persisted decision comments -/

/-- A non-pending admission row survives any slot re-evaluation
unchanged (the bulk auto-reject touches only pending rows). -/
lemma mem_recs_reeval (now : Int) (st : St) (i : Nat) (r : ProductTimeSlot)
    (hr : r ∈ st.recs) (hnp : r.status ≠ AdmStatus.pending) :
    r ∈ (reeval_slot now st i).recs := by
  have hrp : rejectPend i r = r := by
    simp [rejectPend, hnp]
  cases h : st.slots.find? (fun s => s.id == i) with
  | none => simpa [reeval_slot, h] using hr
  | some s =>
    by_cases h1 : s.end_time ≤ now
    · by_cases h2 : s.status = SlotStatus.ended
      · simpa [reeval_slot, h, h1, h2] using hr
      · simpa [reeval_slot, h, h1, h2, setSlotStatus] using hr
    · by_cases h2 : s.status = SlotStatus.waiting ∧ s.start_time ≤ now
      · by_cases h3 : 4 ≤ approvedCount st i
        · simpa [reeval_slot, h, h1, h2, h3, setSlotStatus] using hr
        · have hin : reeval_slot now st i
              = autoRejectPendings (setSlotStatus st i SlotStatus.ended) i := by
            simp [reeval_slot, h, h1, h2, h3]
          have hrec : (autoRejectPendings (setSlotStatus st i SlotStatus.ended) i).recs
              = st.recs.map (rejectPend i) := rfl
          rw [hin, hrec]
          exact List.mem_map.mpr ⟨r, hr, hrp⟩
      · simpa [reeval_slot, h, h1, h2] using hr

/-- C9: on a successful moderator decision the persisted comment on the
admission record follows the policy of `views.py` lines 513-521 —
`approve` persists the fixed system comment, while `reject` and `remove`
persist the operator's comment, or the generic default when it is
blank. -/
theorem decide_comment_policy (st : St) (cats : List Nat) (modId : Nat) (d : Decision)
    (ptsId : Nat) (comment : String) (now : Int) (r : ProductTimeSlot) (p : Product) (ts : Slot)
    (hr : st.recs.find? (fun q => q.id == ptsId) = some r)
    (hp : st.products.find? (fun q => q.id == r.productId) = some p)
    (hc : p.categoryId ∈ cats)
    (hs : st.slots.find? (fun s => s.id == r.timeslotId) = some ts)
    (hw : ts.status = SlotStatus.waiting) :
    ∃ q ∈ (moderator_decide st cats modId d ptsId comment now).2.recs,
      q.id = r.id ∧ q.status = decisionStatus d ∧
      q.moderator_comment = (match d with
        | Decision.approve => approveComment
        | Decision.reject => if comment = "" then "Rejected by moderator." else comment
        | Decision.remove => if comment = "" then "Removed by moderator." else comment) := by
  have hrid : (r.id == ptsId) = true := by simpa using List.find?_some hr
  have hrmem : r ∈ st.recs := List.mem_of_find?_eq_some hr
  have hres : (moderator_decide st cats modId d ptsId comment now).2
      = reeval_slot now
          (St.mk st.slots st.products
            (st.recs.map (fun q => if q.id == ptsId then
              ProductTimeSlot.mk q.id q.productId q.timeslotId (decisionStatus d)
                (decisionComment d comment) else q))
            (appendSettleLog st.logs ptsId (some modId) (decisionAction d)
              (decisionComment d comment))
            st.nextId)
          r.timeslotId := by
    simp [moderator_decide, hr, hp, hc, hs, hw]
  refine ⟨ProductTimeSlot.mk r.id r.productId r.timeslotId (decisionStatus d)
      (decisionComment d comment), ?_, rfl, rfl, ?_⟩
  · rw [hres]
    apply mem_recs_reeval
    · exact List.mem_map.mpr ⟨r, hrmem, by simp [hrid]⟩
    · cases d <;> simp [decisionStatus]
  · cases d <;> rfl

/-- Witness for C9: a blank comment on a reject persists the generic
default. -/
theorem decide_comment_policy_witness :
    ((St.mk [Slot.mk 1 "S" 0 10 SlotStatus.waiting] [Product.mk 2 7 1]
          [ProductTimeSlot.mk 5 2 1 AdmStatus.pending ""] [] 6).recs.find?
        (fun q => q.id == 5) = some (ProductTimeSlot.mk 5 2 1 AdmStatus.pending ""))
    ∧ (1 : Nat) ∈ [1]
    ∧ (∃ q ∈ (moderator_decide (St.mk [Slot.mk 1 "S" 0 10 SlotStatus.waiting]
            [Product.mk 2 7 1] [ProductTimeSlot.mk 5 2 1 AdmStatus.pending ""] [] 6)
          [1] 3 Decision.reject 5 "" 20).2.recs,
        q.id = (ProductTimeSlot.mk 5 2 1 AdmStatus.pending "").id ∧
        q.status = decisionStatus Decision.reject ∧
        q.moderator_comment = (match Decision.reject with
          | Decision.approve => approveComment
          | Decision.reject => if "" = "" then "Rejected by moderator." else ""
          | Decision.remove => if "" = "" then "Removed by moderator." else "")) :=
  ⟨by decide, by decide,
    decide_comment_policy (St.mk [Slot.mk 1 "S" 0 10 SlotStatus.waiting] [Product.mk 2 7 1]
        [ProductTimeSlot.mk 5 2 1 AdmStatus.pending ""] [] 6) [1] 3 Decision.reject 5 "" 20
      (ProductTimeSlot.mk 5 2 1 AdmStatus.pending "") (Product.mk 2 7 1)
      (Slot.mk 1 "S" 0 10 SlotStatus.waiting) (by decide) (by decide) (by decide)
      (by decide) rfl⟩

/-! ## C5 — slot-status monotonicity -/

lemma slotMono_refl (st : St) : SlotMono st st :=
  fun _ s h => ⟨s, h, le_refl _⟩

lemma slotMono_trans {a b c : St} (h1 : SlotMono a b) (h2 : SlotMono b c) : SlotMono a c := by
  intro i s hs
  rcases h1 i s hs with ⟨s', hs', hr⟩
  rcases h2 i s' hs' with ⟨s'', hs'', hr'⟩
  exact ⟨s'', hs'', le_trans hr hr'⟩

lemma slotStatus_eq_of_slots_eq {st st' : St} (h : st'.slots = st.slots) (i : Nat) :
    slotStatus st' i = slotStatus st i := by
  unfold slotStatus
  rw [h]

lemma slotMono_of_slots_eq {st st' : St} (h : st'.slots = st.slots) : SlotMono st st' :=
  fun i s hs => ⟨s, by rw [slotStatus_eq_of_slots_eq h]; exact hs, le_refl _⟩

lemma slotMono_of_left_slots_eq {st st1 st' : St} (h : st1.slots = st.slots)
    (hm : SlotMono st1 st') : SlotMono st st' := by
  intro i s hs
  exact hm i s (by rw [slotStatus_eq_of_slots_eq h]; exact hs)

/-- Re-evaluating slot `i` does not touch the status of any other slot. -/
lemma slotStatus_reeval_ne (now : Int) (st : St) (i j : Nat) (hij : j ≠ i) :
    slotStatus (reeval_slot now st i) j = slotStatus st j := by
  cases h : st.slots.find? (fun s => s.id == i) with
  | none => simp [reeval_slot, h]
  | some s0 =>
    by_cases h1 : s0.end_time ≤ now
    · by_cases h2 : s0.status = SlotStatus.ended
      · simp [reeval_slot, h, h1, h2]
      · have hin : reeval_slot now st i = setSlotStatus st i SlotStatus.ended := by
          simp [reeval_slot, h, h1, h2]
        rw [hin, slotStatus_set_ne st i j _ hij]
    · by_cases h2 : s0.status = SlotStatus.waiting ∧ s0.start_time ≤ now
      · by_cases h3 : 4 ≤ approvedCount st i
        · have hin : reeval_slot now st i = setSlotStatus st i SlotStatus.live := by
            simp [reeval_slot, h, h1, h2, h3]
          rw [hin, slotStatus_set_ne st i j _ hij]
        · have hin : reeval_slot now st i
              = autoRejectPendings (setSlotStatus st i SlotStatus.ended) i := by
            simp [reeval_slot, h, h1, h2, h3]
          rw [hin, slotStatus_autoRejectPendings, slotStatus_set_ne st i j _ hij]
      · simp [reeval_slot, h, h1, h2]

/-- Slot re-evaluation never moves any slot's status backward. -/
lemma reeval_slotMono (now : Int) (st : St) (i : Nat) : SlotMono st (reeval_slot now st i) := by
  intro j s hj
  by_cases hij : j = i
  · subst hij
    cases h : st.slots.find? (fun s => s.id == j) with
    | none =>
      refine ⟨s, ?_, le_refl _⟩
      simpa [reeval_slot, h] using hj
    | some s0 =>
      have hs0 : s0.status = s := by
        unfold slotStatus at hj
        rw [h] at hj
        simpa using hj
      by_cases h1 : s0.end_time ≤ now
      · by_cases h2 : s0.status = SlotStatus.ended
        · exact ⟨s, by simpa [reeval_slot, h, h1, h2] using hj, le_refl _⟩
        · refine ⟨SlotStatus.ended, ?_, ?_⟩
          · have hin : reeval_slot now st j = setSlotStatus st j SlotStatus.ended := by
              simp [reeval_slot, h, h1, h2]
            rw [hin, slotStatus_set_self, hj]
            rfl
          · cases s <;> simp [SlotStatus.rank]
      · by_cases h2 : s0.status = SlotStatus.waiting ∧ s0.start_time ≤ now
        · have hsw : s = SlotStatus.waiting := by rw [← hs0]; exact h2.1
          by_cases h3 : 4 ≤ approvedCount st j
          · refine ⟨SlotStatus.live, ?_, ?_⟩
            · have hin : reeval_slot now st j = setSlotStatus st j SlotStatus.live := by
                simp [reeval_slot, h, h1, h2, h3]
              rw [hin, slotStatus_set_self, hj]
              rfl
            · rw [hsw]
              simp [SlotStatus.rank]
          · refine ⟨SlotStatus.ended, ?_, ?_⟩
            · have hin : reeval_slot now st j
                  = autoRejectPendings (setSlotStatus st j SlotStatus.ended) j := by
                simp [reeval_slot, h, h1, h2, h3]
              rw [hin, slotStatus_autoRejectPendings, slotStatus_set_self, hj]
              rfl
            · rw [hsw]
              simp [SlotStatus.rank]
        · exact ⟨s, by simpa [reeval_slot, h, h1, h2] using hj, le_refl _⟩
  · exact ⟨s, by rw [slotStatus_reeval_ne now st i j hij]; exact hj, le_refl _⟩

lemma slotMono_reeval_of_slots_eq {st st1 : St} (h : st1.slots = st.slots)
    (now : Int) (i : Nat) : SlotMono st (reeval_slot now st1 i) :=
  slotMono_of_left_slots_eq h (reeval_slotMono now st1 i)

lemma foldl_reeval_slotMono (now : Int) (ids : List Nat) (st : St) :
    SlotMono st (ids.foldl (fun acc i => reeval_slot now acc i) st) := by
  induction ids generalizing st with
  | nil => exact slotMono_refl st
  | cons a l ih =>
    simp only [List.foldl_cons]
    exact slotMono_trans (reeval_slotMono now st a) (ih (reeval_slot now st a))

lemma assign_timeslot_slots (st : St) (m slotId : Nat) (pids : List String) :
    (assign_timeslot st m slotId pids).2.slots = st.slots := by
  unfold assign_timeslot
  cases st.slots.find? (fun s => s.id == slotId) with
  | none => rfl
  | some ts =>
    by_cases hw : ts.status ≠ SlotStatus.waiting
    · simp [hw]
    · by_cases he : pids.isEmpty
      · simp [hw, he]
      · simp only [hw, he, if_false]
        cases assignLoop st.products m slotId
            ((st.recs.filter (fun r => r.timeslotId == slotId
              && pids.any (fun s => pyInt? s == some r.productId))).map
              (fun r => r.productId)) pids st.recs st.logs st.nextId with
        | error e => cases e <;> rfl
        | ok o => rfl

lemma remove_from_timeslot_slots (st : St) (m ptsId : Nat) :
    (remove_from_timeslot st m ptsId).2.slots = st.slots := by
  unfold remove_from_timeslot
  cases st.recs.find? (fun r => r.id == ptsId
      && st.products.any (fun p => p.id == r.productId && p.merchantId == m)) with
  | none => rfl
  | some r => rfl

lemma delete_product_slots (st : St) (m prodId : Nat) :
    (delete_product st m prodId).2.slots = st.slots := by
  unfold delete_product
  cases st.products.find? (fun p => p.id == prodId && p.merchantId == m) with
  | none => rfl
  | some p => rfl

lemma moderator_decide_slotMono (st : St) (cats : List Nat) (modId : Nat) (d : Decision)
    (ptsId : Nat) (comment : String) (now : Int) :
    SlotMono st (moderator_decide st cats modId d ptsId comment now).2 := by
  cases hr : st.recs.find? (fun r => r.id == ptsId) with
  | none =>
    have hres : (moderator_decide st cats modId d ptsId comment now).2 = st := by
      simp [moderator_decide, hr]
    rw [hres]
    exact slotMono_refl st
  | some r =>
    cases hp : st.products.find? (fun p => p.id == r.productId) with
    | none =>
      have hres : (moderator_decide st cats modId d ptsId comment now).2 = st := by
        simp [moderator_decide, hr, hp]
      rw [hres]
      exact slotMono_refl st
    | some p =>
      by_cases hc : p.categoryId ∈ cats
      · cases hs : st.slots.find? (fun s => s.id == r.timeslotId) with
        | none =>
          have hres : (moderator_decide st cats modId d ptsId comment now).2 = st := by
            simp [moderator_decide, hr, hp, hc, hs]
          rw [hres]
          exact slotMono_refl st
        | some ts =>
          by_cases hw : ts.status = SlotStatus.waiting
          · have hres : (moderator_decide st cats modId d ptsId comment now).2
                = reeval_slot now
                    (St.mk st.slots st.products
                      (st.recs.map (fun q => if q.id == ptsId then
                        ProductTimeSlot.mk q.id q.productId q.timeslotId (decisionStatus d)
                          (decisionComment d comment) else q))
                      (appendSettleLog st.logs ptsId (some modId) (decisionAction d)
                        (decisionComment d comment))
                      st.nextId)
                    r.timeslotId := by
              simp [moderator_decide, hr, hp, hc, hs, hw]
            rw [hres]
            apply slotMono_reeval_of_slots_eq
            rfl
          · have hres : (moderator_decide st cats modId d ptsId comment now).2 = st := by
              simp [moderator_decide, hr, hp, hc, hs, hw]
            rw [hres]
            exact slotMono_refl st
      · have hres : (moderator_decide st cats modId d ptsId comment now).2 = st := by
          simp [moderator_decide, hr, hp, hc]
        rw [hres]
        exact slotMono_refl st

lemma create_slot_slotMono (st : St) (creator : Nat) (name : String) (start finish : Int) :
    SlotMono st (create_slot st creator name start finish) := by
  intro i s hs
  refine ⟨s, ?_, le_refl _⟩
  unfold slotStatus at hs ⊢
  unfold create_slot
  simp only
  rw [List.find?_append]
  cases h : st.slots.find? (fun x => x.id == i) with
  | none => rw [h] at hs; simp at hs
  | some a => rw [h] at hs; simpa using hs

/-- No single operation moves a slot's status backward. -/
lemma applyOp_slotMono (op : Op) (st : St) : SlotMono st (applyOp op st) := by
  cases op with
  | assign m slotId pids =>
    exact slotMono_of_slots_eq (assign_timeslot_slots st m slotId pids)
  | withdraw m ptsId =>
    exact slotMono_of_slots_eq (remove_from_timeslot_slots st m ptsId)
  | deleteProduct m prodId =>
    exact slotMono_of_slots_eq (delete_product_slots st m prodId)
  | moddecide cats modId d ptsId comment now =>
    exact moderator_decide_slotMono st cats modId d ptsId comment now
  | createSlot creator name start finish =>
    exact create_slot_slotMono st creator name start finish
  | reconcile now =>
    exact foldl_reeval_slotMono now _ st

/-- No sequence of operations moves a slot's status backward. -/
lemma foldl_applyOp_slotMono (ops : List Op) (st : St) :
    SlotMono st (ops.foldl (fun acc op => applyOp op acc) st) := by
  induction ops generalizing st with
  | nil => exact slotMono_refl st
  | cons op l ih =>
    simp only [List.foldl_cons]
    exact slotMono_trans (applyOp_slotMono op st) (ih (applyOp op st))

/-- C5: slot status is monotonic over time — across any sequence of
operations (merchant submissions and withdrawals, product deletions,
moderator decisions, slot creation, reconciliation), a slot present in
the store keeps a status whose lifecycle rank never decreases: the only
transitions are waiting→live, live→ended and waiting→ended. -/
theorem slot_status_monotonic (ops : List Op) (st : St) (i : Nat) (s : SlotStatus)
    (h : slotStatus st i = some s) :
    ∃ s', slotStatus (ops.foldl (fun acc op => applyOp op acc) st) i = some s'
      ∧ s.rank ≤ s'.rank :=
  foldl_applyOp_slotMono ops st i s h

/-- Witness for C5: a waiting slot past its window end is reconciled to
`ended`, a rank increase. -/
theorem slot_status_monotonic_witness :
    (slotStatus (St.mk [Slot.mk 1 "S" 0 10 SlotStatus.waiting] [] [] [] 2) 1
        = some SlotStatus.waiting)
    ∧ (∃ s', slotStatus ([Op.reconcile 20].foldl (fun acc op => applyOp op acc)
          (St.mk [Slot.mk 1 "S" 0 10 SlotStatus.waiting] [] [] [] 2)) 1 = some s'
        ∧ SlotStatus.waiting.rank ≤ SlotStatus.rank s') :=
  ⟨by decide,
    slot_status_monotonic [Op.reconcile 20]
      (St.mk [Slot.mk 1 "S" 0 10 SlotStatus.waiting] [] [] [] 2) 1 SlotStatus.waiting
      (by decide)⟩
